import Mathlib

/-
Verification of the frame-sequence processing pipeline of
sonniks/substack.python.utilities (Processor-Video and Chromakey trees).

Pixels are 8-bit RGBA channels modelled as Nat.  All numpy uint8
arithmetic from the source is modelled with explicit wraparound mod 256;
the float32 arithmetic of the brightness-correction step in negative.py
is modelled exactly (IEEE round-to-nearest-even on rationals represented
as integer pairs); PIL library calls that the code relies on
(ImageOps.invert, Image.convert mode L, Image.alpha_composite) are
modelled by the exact integer formulas of the Pillow C implementation.
-/

structure RGB where
  r : Nat
  g : Nat
  b : Nat
deriving DecidableEq, Repr

structure RGBA where
  r : Nat
  g : Nat
  b : Nat
  a : Nat
deriving DecidableEq, Repr

/-! ## numpy uint8 arithmetic

In chromakey.py, `fg_data` is a uint8 ndarray, and `fg_data[:, :, 0] - r`,
`(...) ** 2`, `x + y` and `x + 10` all stay in dtype uint8, silently
wrapping modulo 256.  The operands are always channel values below 256. -/

/-- Subtraction of uint8 values as numpy performs it: wraparound mod 256
(operands are channel values, both below 256). -/
def sub8 (x y : Nat) : Nat := (x + 256 - y) % 256

/-- Squaring of a uint8 value as numpy performs it: wraparound mod 256. -/
def sq8 (x : Nat) : Nat := x * x % 256

/-- Addition of uint8 values as numpy performs it: wraparound mod 256. -/
def add8 (x y : Nat) : Nat := (x + y) % 256

/-! ## chromakey.py : chroma_key (lines 35-64)

`diff = np.sqrt((fg-r)**2 + (fg-g)**2 + (fg-b)**2)` is computed on uint8
data, so every subtraction, square and sum wraps mod 256; only the final
`np.sqrt` moves to float64.  Comparing `np.sqrt(s) < tolerance` for a
nonnegative integer s below 768 and an integer tolerance is exact in
float64 and equivalent to `s < tolerance^2`, which is how the mask
condition is expressed below.  Likewise `luma = mean(R,G,B) > wp` is the
exact float64 comparison `R+G+B > 3*wp`. -/

/-- Value of `np.argmax([r, g, b])`: index of the first maximal channel of
the key color (chromakey.py line 54). -/
def domChannel (key : RGB) : Nat :=
  if key.r < key.g then (if key.g < key.b then 2 else 1)
  else (if key.r < key.b then 2 else 0)

/-- Channel accessor by numpy channel index (0 = R, 1 = G, 2 = B). -/
def channel (p : RGBA) : Nat → Nat
  | 0 => p.r
  | 1 => p.g
  | _ => p.b

/-- The list `other_channels = [i for i in range(3) if i != dominant]`
(chromakey.py line 55), as the ordered pair of non-dominant indices. -/
def otherPair (dom : Nat) : Nat × Nat :=
  match dom with
  | 0 => (1, 2)
  | 1 => (0, 2)
  | _ => (0, 1)

/-- The squared color difference exactly as chroma_key computes it on
uint8 data: each channel difference, its square, and the sums all wrap
modulo 256 (chromakey.py lines 46-51). -/
def diffSq8 (fg : RGBA) (key : RGB) : Nat :=
  add8 (add8 (sq8 (sub8 fg.r key.r)) (sq8 (sub8 fg.g key.g)))
    (sq8 (sub8 fg.b key.b))

/-- The `pixel_dominant` mask of chroma_key (lines 56-59): the dominant
channel must exceed `other + 10`, where `other + 10` is again a uint8
addition that wraps modulo 256. -/
def pixelDominant (fg : RGBA) (dom : Nat) : Bool :=
  decide (add8 (channel fg (otherPair dom).1) 10 < channel fg dom) &&
    decide (add8 (channel fg (otherPair dom).2) 10 < channel fg dom)

/-- The `is_bright` mask of chroma_key (lines 60-61): float64 mean of the
RGB channels strictly above white_protect, exactly `r+g+b > 3*wp`. -/
def isBright (fg : RGBA) (wp : Nat) : Bool :=
  decide (3 * wp < fg.r + fg.g + fg.b)

/-- One pixel of chroma_key (chromakey.py lines 35-64): the foreground
pixel is replaced by the background pixel (all four channels wholesale)
iff `diff < tolerance` and `pixel_dominant` and not `is_bright`. -/
def chromaKeyPixel (fg bg : RGBA) (key : RGB) (tol wp : Nat) : RGBA :=
  let dom := domChannel key
  if decide (diffSq8 fg key < tol * tol) && pixelDominant fg dom &&
      !isBright fg wp then bg
  else fg

/-! ## Spec-side chroma key replacement condition (claim C1)

The claim states the mask in exact integer arithmetic: true Euclidean
distance below tolerance, true additive channel dominance by more than
10, and luma (mean of R,G,B) not above white_protect. -/

/-- Squared Euclidean RGB distance between a foreground pixel and the key
color, in exact (non-wrapping) arithmetic, as the spec describes it. -/
def euclidSqSpec (fg : RGBA) (key : RGB) : Nat :=
  Nat.dist fg.r key.r ^ 2 + Nat.dist fg.g key.g ^ 2 + Nat.dist fg.b key.b ^ 2

/-- The replacement condition exactly as claim C1 states it: Euclidean
distance strictly below tolerance (compared on squares), the foreground
value on the key-dominant channel exceeding each other channel by
strictly more than 10 in exact arithmetic, and luma not above
white_protect. -/
def specReplace (fg : RGBA) (key : RGB) (tol wp : Nat) : Bool :=
  let dom := domChannel key
  decide (euclidSqSpec fg key < tol * tol) &&
    decide (channel fg (otherPair dom).1 + 10 < channel fg dom) &&
    decide (channel fg (otherPair dom).2 + 10 < channel fg dom) &&
    decide (fg.r + fg.g + fg.b ≤ 3 * wp)

/-! ## negative.py : create_negative (lines 22-44)

`ImageOps.invert` on an RGB image maps every channel value v to 255 - v.
`img.convert(mode L)` uses the Pillow ITU-R 601-2 integer formula
`(19595*r + 38470*g + 7471*b + 32768) >> 16` (the fixed-point rounding
of 0.299 R + 0.587 G + 0.114 B used by the Pillow C code, file
Convert.c, macro L24).  `putalpha` installs that luminance of the
original, non-inverted image as the alpha channel. -/

/-- One channel of ImageOps.invert: the classic photographic negative. -/
def invertCh (v : Nat) : Nat := 255 - v

/-- Pillow grayscale conversion (mode L) of one RGB pixel: the weighted
ITU-R 601-2 luminance in its exact fixed-point form. -/
def lumaL (r g b : Nat) : Nat :=
  (19595 * r + 38470 * g + 7471 * b + 32768) / 65536

/-- One pixel of create_negative (negative.py lines 22-44): inverted RGB
channels with the luminance of the original pixel as alpha. -/
def createNegativePixel (p : RGB) : RGBA :=
  ⟨invertCh p.r, invertCh p.g, invertCh p.b, lumaL p.r p.g p.b⟩

/-- create_negative over a whole frame, pixel by pixel (the PIL calls are
all pointwise; dimensions are untouched, so the frame is a pixel list). -/
def createNegativeImg (img : List RGB) : List RGBA :=
  img.map createNegativePixel

/-! ## IEEE binary32 rounding, modelled exactly on rationals

The brightness correction of apply_light (negative.py lines 62-70) runs
in numpy float32: `scale = float32(255) / float32(alpha)` (written into
a float32 out-array) and `float32(v) * scale`, each correctly rounded to
the nearest binary32 value, ties to even.  Every quantity that appears
is a positive rational with value at least 1 (or exactly 0, handled
separately), far inside the normal binary32 range, so rounding is fully
described by: find the exponent e with 2^e <= q < 2^(e+1), then round
q * 2^(23-e) to the nearest integer, ties to even.  A binary32 value is
represented below as a pair (m, s) meaning the exact rational m / 2^s. -/

/-- Round n/d to the nearest integer, ties to even. -/
def rne (n d : Nat) : Nat :=
  let q := n / d
  let r := n % d
  if 2 * r < d then q
  else if d < 2 * r then q + 1
  else if q % 2 = 0 then q else q + 1

/-- Fuel-driven floor of log2 (structural recursion so that kernel
reduction works inside decide). -/
def log2fuel : Nat → Nat → Nat
  | 0, _ => 0
  | fuel + 1, n => if n < 2 then 0 else log2fuel fuel (n / 2) + 1

/-- Floor of log2 of a positive natural number. -/
def ilog2 (n : Nat) : Nat := log2fuel n n

/-- Correct rounding of the positive rational num/den (assumed >= 1) to
IEEE binary32, returned as (m, s) with exact value m / 2^s. -/
def fl32r (num den : Nat) : Nat × Nat :=
  let e := ilog2 (num / den)
  let m := rne (num * 2 ^ 23) (den * 2 ^ e)
  if e ≤ 23 then (m, 23 - e) else (m * 2 ^ (e - 23), 0)

/-! ## negative.py : apply_light brightness correction (lines 62-70)

`scale_factor` is 255/alpha computed in float32 with the convention 0
where alpha == 0 (np.divide with a zeros-initialised out-array and a
where-mask), `corrected = rgb * scale_factor` in float32, then
`np.clip(..., 0, 255).astype(np.uint8)` which truncates toward zero. -/

/-- One channel of the brightness-correction step of apply_light, exactly
as the float32 code computes it: v is the inverted-composite channel
value and a the alpha of the negative.  When a = 0 the scale factor is
forced to 0; when v = 0 the float product is exactly 0.  Otherwise both
factors are at least 1 and the two binary32 roundings (division, then
product) are modelled exactly; clip to [0,255] followed by uint8
truncation is min 255 of the floor. -/
def scaleCorrectCh (v a : Nat) : Nat :=
  if a = 0 then 0
  else if v = 0 then 0
  else
    let s := fl32r 255 a
    let p := fl32r (v * s.1) (2 ^ s.2)
    min 255 (p.1 / 2 ^ p.2)

/-- The brightness correction as claim C2 words it, in exact rational
arithmetic: multiply by 255/alpha (0 where alpha = 0), clamp to [0,255],
truncate to an integer. -/
def scaleCorrectExact (v a : Nat) : Nat :=
  if a = 0 then 0 else min 255 (v * 255 / a)

/-! ## Pillow Image.alpha_composite, one channel

apply_light composites the negative (source) over a fully opaque solid
color layer (destination).  The Pillow C implementation
(AlphaComposite.c, PRECISION_BITS = 7) special-cases source alpha 0 and
255 and otherwise uses integer coefficients with the SHIFTFORDIV255
approximation of division by 255. -/

/-- Pillow SHIFTFORDIV255 macro: (((x >> 8) + x) >> 8). -/
def div255approx (x : Nat) : Nat := (x / 256 + x) / 256

/-- One channel of Pillow alpha_composite for source channel sc with
source alpha sa over destination channel dc with destination alpha da,
following AlphaComposite.c exactly. -/
def alphaCompositeCh (sc sa dc da : Nat) : Nat :=
  if sa = 0 then dc
  else if sa = 255 then sc
  else
    let blend := da * (255 - sa)
    let outa255 := sa * 255 + blend
    let coef1 := sa * 255 * 255 * 128 / outa255
    let coef2 := 255 * 128 - coef1
    div255approx (sc * coef1 + dc * coef2 + 16384) / 128

/-- One channel of apply_light (negative.py lines 47-72): composite the
negative channel n with alpha a over the solid light channel L (opaque,
da = 255), invert the composite, then apply the float32 brightness
correction with the alpha of the negative. -/
def applyLightCh (n a L : Nat) : Nat :=
  scaleCorrectCh (255 - alphaCompositeCh n a L 255) a

/-- apply_light on one RGBA negative pixel with a solid light color. -/
def applyLightPixel (neg : RGBA) (light : RGB) : RGB :=
  ⟨applyLightCh neg.r neg.a light.r,
   applyLightCh neg.g neg.a light.g,
   applyLightCh neg.b neg.a light.b⟩

/-- The chained per-pixel pipeline of the negative-reimage operation:
create_negative followed by apply_light. -/
def pipelinePixel (orig light : RGB) : RGB :=
  applyLightPixel (createNegativePixel orig) light

/-- Modelled from the spec: the reference function of claim C3, which
weights the light color by the luminance of the original pixel
(per channel, light * luma / 255). -/
def refLightPixel (orig light : RGB) : RGB :=
  let lum := lumaL orig.r orig.g orig.b
  ⟨light.r * lum / 255, light.g * lum / 255, light.b * lum / 255⟩

/-! ## chromakey.py : process, sequence mode (lines 93-131)

The orchestrator loads the sorted foreground frame list, resolves the
background as either a static image or a second frame list, sets
`frame_count = len(fg) if use_static else min(len(fg), len(bg))` and
loops `for i in range(frame_count)`, pairing foreground frame i with
background frame i (or a fresh copy of the static background). -/

/-- Background source resolved by chromakey.process: a single static
image reused each frame, or a second frame sequence. -/
inductive Background (α : Type) where
  | static (img : α)
  | seq (frames : List α)

/-- The frame_count of chromakey.process line 121. -/
def frameCount (fg : List α) : Background α → Nat
  | .static _ => fg.length
  | .seq bs => min fg.length bs.length

/-- The background used at index i of the loop body (line 127). -/
def bgFrame : Background α → Nat → Option α
  | .static img, _ => some img
  | .seq bs, i => bs[i]?

/-- The foreground/background pairs visited by the loop
`for i in range(frame_count)` of chromakey.process (lines 122-131). -/
def framePairs (fg : List α) (bg : Background α) : List (Option α × Option α) :=
  (List.range (frameCount fg bg)).map fun i => (fg[i]?, bgFrame bg i)

/-! ## resize_to_match (chromakey.py lines 19-32, Chromakey/chromakey.py
lines 31-45; both copies are identical)

PIL Image.resize is an external library call; it is a parameter here,
together with the resampling filter constant passed to it. -/

/-- An image buffer: PIL size plus pixel content. -/
structure Img (α : Type) where
  w : Nat
  h : Nat
  data : List α
deriving DecidableEq, Repr

/-- PIL size attribute, the (width, height) pair. -/
def Img.size (img : Img α) : Nat × Nat := (img.w, img.h)

/-- The PIL resampling filters that resize can be called with. -/
inductive PilFilter where
  | nearest
  | bilinear
  | bicubic
deriving DecidableEq, Repr

/-- resize_to_match: equal sizes are returned unchanged; otherwise the
image with the larger pixel area keeps its size and the other one is
resized to it with Image.BILINEAR; on an area tie img1 is resized. -/
def resizeToMatch (resize : Img α → Nat × Nat → PilFilter → Img α)
    (img1 img2 : Img α) : Img α × Img α :=
  if img1.size = img2.size then (img1, img2)
  else if img2.w * img2.h < img1.w * img1.h then
    (img1, resize img2 img1.size .bilinear)
  else (resize img1 img2.size .bilinear, img2)

/-! ## The per-frame loop with its try/except (chromakey.py lines
122-131, negative.py lines 110-128)

Each loop body is wrapped in try/except: a failing frame is reported
with its index (`print(f-string "Frame i failed")`) and the loop moves
on to the next index.  The body is a parameter returning Except; the
loop returns the successfully written (index, result) pairs and the
list of logged failing indices. -/

/-- The orchestrator frame loop starting at index i with k frames left:
a per-frame failure is recorded (the printed log carries the index) and
iteration continues; a success appends the written frame. -/
def frameLoopFrom (step : Nat → Except String α) (i : Nat) :
    Nat → List (Nat × α) × List Nat
  | 0 => ([], [])
  | k + 1 =>
    match step i with
    | .ok out =>
      let rest := frameLoopFrom step (i + 1) k
      ((i, out) :: rest.1, rest.2)
    | .error _ =>
      let rest := frameLoopFrom step (i + 1) k
      (rest.1, i :: rest.2)

/-- The loop `for i in range(n)` over the per-frame body. -/
def frameLoop (step : Nat → Except String α) (n : Nat) :
    List (Nat × α) × List Nat :=
  frameLoopFrom step 0 n

/-! ## hex color handling (negative.py lines 10-19, chromakey.py lines
9-16)

negative.py strips every leading hash (Python str.lstrip), checks the
regex carret [0-9a-fA-F] six times dollar with re.match (which also
tolerates one trailing newline before the dollar anchor) and raises
ValueError otherwise.  chromakey.py strips leading hashes and directly
calls int(s[i:i+2], 16) for i in (0, 2, 4) with no validation at all: a
too-long string is silently truncated to its first six characters, and
a parse failure raises an uncaught ValueError.  Python int(str, 16) is
modelled on plain hexadecimal-digit strings (its extra tolerance for
signs, whitespace and the 0x prefix only widens what is accepted and is
never exercised by the inputs below). -/

/-- Hexadecimal digit test matching the character class of the
negative.py regex. -/
def isHexDigit (c : Char) : Bool :=
  (decide (48 ≤ c.toNat) && decide (c.toNat ≤ 57)) ||
    (decide (97 ≤ c.toNat) && decide (c.toNat ≤ 102)) ||
    (decide (65 ≤ c.toNat) && decide (c.toNat ≤ 70))

/-- Value of one hexadecimal digit. -/
def hexVal (c : Char) : Nat :=
  if c.toNat ≤ 57 then c.toNat - 48
  else if 97 ≤ c.toNat then c.toNat - 87
  else c.toNat - 55

/-- Python str.lstrip with argument the hash character: every leading
hash is removed, not just one. -/
def lstripHash (s : List Char) : List Char := s.dropWhile (· == '#')

/-- Python int(s, 16) on the slices the code takes, restricted to plain
hex-digit strings: empty or non-hex input raises ValueError (none). -/
def pyIntHex16 (s : List Char) : Option Nat :=
  if s.isEmpty then none
  else if s.all isHexDigit then
    some (s.foldl (fun acc c => 16 * acc + hexVal c) 0)
  else none

/-- hex_to_rgb of chromakey.py (lines 9-16): no format validation; the
three two-character slices at 0, 2, 4 of the hash-stripped string are
parsed and anything beyond index 5 is ignored.  none models the
uncaught ValueError that aborts the run. -/
def chromakeyHexToRgb (s : List Char) : Option RGB :=
  let t := lstripHash s
  match pyIntHex16 (t.take 2), pyIntHex16 ((t.drop 2).take 2),
      pyIntHex16 ((t.drop 4).take 2) with
  | some r, some g, some b => some ⟨r, g, b⟩
  | _, _, _ => none

/-- The re.match test of negative.py line 17 on the hash-stripped
string: six hex digits, with the Python dollar anchor also accepting a
single trailing newline. -/
def regexHex6 (t : List Char) : Bool :=
  (decide (t.length = 6) && t.all isHexDigit) ||
    (decide (t.length = 7) && (t.take 6).all isHexDigit &&
      decide (t.getLast? = some (Char.ofNat 10)))

/-- hex_to_rgb of negative.py (lines 10-19): leading hashes stripped,
regex-validated, ValueError (none) otherwise; on success the three
two-character slices are parsed. -/
def negHexToRgb (s : List Char) : Option RGB :=
  let t := lstripHash s
  if regexHex6 t then
    match pyIntHex16 (t.take 2), pyIntHex16 ((t.drop 2).take 2),
        pyIntHex16 ((t.drop 4).take 2) with
    | some r, some g, some b => some ⟨r, g, b⟩
    | _, _, _ => none
  else none

/-- Modelled from the spec: a color argument is valid iff it is exactly
six hexadecimal digits, optionally prefixed with a single hash. -/
def specValidColor (s : List Char) : Bool :=
  (decide (s.length = 6) && s.all isHexDigit) ||
    (decide (s.length = 7) && (s.head? == some '#') &&
      s.tail.all isHexDigit)

/-- The negative-reimage sequence branch of negative.py process (lines
116-128): the color is parsed before the frame loop; a ValueError is
logged and the function returns with no frame processed, otherwise every
frame runs through create_negative and apply_light. -/
def negativeReimageSeq (color : String) (frames : List RGB) :
    Option (List RGB) :=
  match negHexToRgb color.data with
  | none => none
  | some light => some (frames.map fun p => pipelinePixel p light)

/-! ## fileio.py : cleanup_sequence (lines 28-61)

The working tree touched by cleanup is the working directory itself plus
its inputframes and backgroundframes subdirectories.  Each directory is
modelled by the list of plain file names it holds directly; a
subdirectory exists on disk only when the root does.  Deleting a file or
directory can fail (modelled by the canDel / canRm parameters); a
failure is logged (the log list below records only these failure
messages, by the name of the path involved) and never raises. -/

/-- State of the working directory tree. -/
structure FS where
  rootExists : Bool
  rootFiles : List String
  inputDir : Option (List String)
  bgDir : Option (List String)
deriving DecidableEq, Repr

/-- The per-file deletion loop of cleanup_sequence (lines 44-49): every
file matching the sequence pattern (m) is os.remove-d inside its own
try/except, so one failed deletion (canDel false) is logged and the
loop continues with the remaining files.  Returns the files left in the
directory and the failure log. -/
def removeLoop (m canDel : String → Bool) :
    List String → List String × List String
  | [] => ([], [])
  | f :: rest =>
    let r := removeLoop m canDel rest
    if m f then
      if canDel f then r else (f :: r.1, f :: r.2)
    else (f :: r.1, r.2)

/-- The treatment of one subdirectory by cleanup_sequence: delete the
matching files (best effort), then rmdir the directory when it became
empty, logging an rmdir failure under the directory name. -/
def cleanSubdir (m canDel : String → Bool) (canRm : Bool) (dirName : String) :
    Option (List String) → Option (List String) × List String
  | none => (none, [])
  | some files =>
    let r := removeLoop m canDel files
    if r.1.isEmpty then
      if canRm then (none, r.2) else (some [], r.2 ++ [dirName])
    else (some r.1, r.2)

/-- cleanup_sequence (fileio.py lines 28-61).  Paths are visited in
source order: the root itself, then inputframes, then backgroundframes.
After its file loop each visited directory is rmdir-ed when empty; for
the root, emptiness means no plain files and no remaining subdirectory
(os.listdir shows subdirectory entries), so the root can be removed
inside the path loop only when no subdirectory exists at all, and a
final pass removes it once the subdirectories are gone.  Every rmdir
failure is logged; when the empty root cannot be removed it is attempted
(and logged) both inside the loop and in the final pass, as in the
source.  Returns the new state and the failure log. -/
def cleanupFS (m canDel : String → Bool)
    (canRmRoot canRmInput canRmBg : Bool) (fs : FS) : FS × List String :=
  if fs.rootExists then
    let r := removeLoop m canDel fs.rootFiles
    if r.1.isEmpty && fs.inputDir.isNone && fs.bgDir.isNone then
      if canRmRoot then (⟨false, r.1, fs.inputDir, fs.bgDir⟩, r.2)
      else (⟨true, r.1, fs.inputDir, fs.bgDir⟩, r.2 ++ ["root"] ++ ["root"])
    else
      let i1 := cleanSubdir m canDel canRmInput "inputframes" fs.inputDir
      let b1 := cleanSubdir m canDel canRmBg "backgroundframes" fs.bgDir
      if r.1.isEmpty && i1.1.isNone && b1.1.isNone then
        if canRmRoot then
          (⟨false, r.1, i1.1, b1.1⟩, r.2 ++ i1.2 ++ b1.2)
        else (⟨true, r.1, i1.1, b1.1⟩, r.2 ++ i1.2 ++ b1.2 ++ ["root"])
      else (⟨true, r.1, i1.1, b1.1⟩, r.2 ++ i1.2 ++ b1.2)
  else (fs, [])

/-- The state of one subdirectory after a fully successful cleanup pass:
matching files gone, and the directory itself gone when that emptied it
(helper for stating what a cleanup run produces). -/
def cleanedSub (m : String → Bool) (o : Option (List String)) :
    Option (List String) :=
  match o with
  | none => none
  | some l => if (l.filter (fun f => !m f)).isEmpty then none
      else some (l.filter (fun f => !m f))

/-! ## output frame naming (negative.py lines 110-128, chromakey.py
lines 122-131)

Both sequence loops write the result of the i-th input frame of the
sorted matching list to workdir with the name built from the positional
loop index, Python format spec 04: zero-padded to at least four
digits. -/

/-- Python format i with format spec 04: decimal digits, left-padded
with zeros to width four. -/
def pad4 (i : Nat) : String :=
  if i < 10 then "000" ++ toString i
  else if i < 100 then "00" ++ toString i
  else if i < 1000 then "0" ++ toString i
  else toString i

/-- The output path written for loop index i (both process loops). -/
def outName (pfx : String) (i : Nat) : String :=
  pfx ++ "_" ++ pad4 i ++ ".png"

/-- The (output name, input frame) pairs produced by the sequence loop:
the i-th sorted input frame is written under the positional index i,
whatever its own numeric suffix was. -/
def seqWrites (pfx : String) (frames : List α) : List (String × Option α) :=
  (List.range frames.length).map fun i => (outName pfx i, frames[i]?)

/-- C1: for every foreground/background pixel pair and key color,
chroma_key replaces the foreground pixel with the background pixel iff
the Euclidean RGB distance to the key color is strictly below tolerance,
the pixel is key-dominant by strictly more than 10, and its luma does
not exceed white_protect.  This fails on the code: the distance is
computed on uint8 data, so the squared differences wrap modulo 256.  For
foreground pixel (200, 250, 0, 255) and key color (0, 255, 0) the true
squared distance is 200^2 + 5^2 = 40025 (distance about 200, far beyond
tolerance 30), but the uint8 computation yields 40025 mod 256 = 89,
sqrt(89) < 30, so the code replaces the pixel that the claim says must
be kept. -/
theorem chromaKey_distance_overflow_bug :
    chromaKeyPixel ⟨200, 250, 0, 255⟩ ⟨1, 2, 3, 4⟩ ⟨0, 255, 0⟩ 30 180 =
      ⟨1, 2, 3, 4⟩ ∧
    specReplace ⟨200, 250, 0, 255⟩ ⟨0, 255, 0⟩ 30 180 = false := by
  decide

/-! ## Shared helper lemmas -/

set_option maxRecDepth 40000 in
/-- The float32 brightness correction at alpha 255 is the identity on
channel values: 255/255 rounds to exactly 1 and products of small
integers with 1 are exact in binary32. -/
theorem scaleCorrectCh_alpha255 : ∀ v, v < 256 → scaleCorrectCh v 255 = v := by
  decide

/-- Pillow alpha_composite with a fully opaque source returns the source
channel unchanged (the source-alpha-255 fast path of AlphaComposite.c). -/
theorem alphaCompositeCh_fullSrcAlpha (sc dc da : Nat) :
    alphaCompositeCh sc 255 dc da = sc := by
  simp [alphaCompositeCh]

/-- apply_light on a channel whose negative alpha is 255 inverts the
negative channel and nothing else: the composite keeps the opaque
negative channel and the float32 rescale by 255/255 is exact. -/
theorem applyLightCh_alpha255 (n L : Nat) (hn : n ≤ 255) :
    applyLightCh n 255 L = 255 - n := by
  unfold applyLightCh
  rw [alphaCompositeCh_fullSrcAlpha]
  exact scaleCorrectCh_alpha255 (255 - n) (by omega)

/-- C2 (amended): the corrected value is the inverted composite
multiplied by 255/alpha in the float32 arithmetic the code uses (scale
factor 0 wherever alpha = 0), clamped to [0,255] and truncated; the two
exact special cases claimed hold: a pixel with alpha = 255 is returned
unchanged and a pixel with alpha = 0 yields exactly 0.  (The general
clause of the claim, read in exact rational arithmetic, fails: see the
counterexample theorem.) -/
theorem applyLight_correction_special (v : Nat) (hv : v ≤ 255) :
    scaleCorrectCh v 255 = v ∧ scaleCorrectCh v 0 = 0 :=
  ⟨scaleCorrectCh_alpha255 v (by omega), rfl⟩

/-- Witness for C2 at channel value 200. -/
theorem applyLight_correction_special_witness :
    scaleCorrectCh 200 255 = 200 ∧ scaleCorrectCh 200 0 = 0 :=
  applyLight_correction_special 200 (by decide)

/-- C2 counterexample: for an inverted-composite value 7 with alpha 7
(reachable in apply_light from the RGBA input pixel (0,0,0,7) under a
white light color, third conjunct), the float32 computation yields
7 * float32(255/7) = 254.99998474 which truncates to 254, while the
exact multiplication by 255/alpha followed by clamping and truncation,
as the claim words it, yields 255. -/
theorem applyLight_correction_float32_cex :
    scaleCorrectCh 7 7 = 254 ∧ scaleCorrectExact 7 7 = 255 ∧
      255 - alphaCompositeCh 0 7 255 255 = 7 := by
  decide

/-- C3 counterexample: on a white source pixel under a pure red light,
the chained create_negative / apply_light pipeline returns white (the
fully opaque negative channel passes through and is rescaled by exactly
1), while the reference function that weights the light color by the
luminance of the original pixel returns the light color red.  The two
functions differ on the green and blue channels by 255. -/
theorem pipeline_not_luma_weighted_cex :
    pipelinePixel ⟨255, 255, 255⟩ ⟨255, 0, 0⟩ = ⟨255, 255, 255⟩ ∧
      refLightPixel ⟨255, 255, 255⟩ ⟨255, 0, 0⟩ = ⟨255, 0, 0⟩ := by
  decide

/-- C3 (amended): the chained pipeline is not pixelwise equivalent to
weighting the light color by the original luminance; what does hold is
that every pixel of full luminance (alpha 255 in the negative) is
returned unchanged by the pipeline for every light color, whereas the
luminance-weighted reference returns the light color there. -/
theorem pipeline_full_alpha_identity (orig light : RGB)
    (hr : orig.r ≤ 255) (hg : orig.g ≤ 255) (hb : orig.b ≤ 255)
    (hl : lumaL orig.r orig.g orig.b = 255) :
    pipelinePixel orig light = orig := by
  obtain ⟨r, g, b⟩ := orig
  dsimp only [pipelinePixel, applyLightPixel, createNegativePixel] at *
  rw [hl]
  rw [applyLightCh_alpha255 (invertCh r) light.r (Nat.sub_le 255 r),
    applyLightCh_alpha255 (invertCh g) light.g (Nat.sub_le 255 g),
    applyLightCh_alpha255 (invertCh b) light.b (Nat.sub_le 255 b)]
  simp only [invertCh, RGB.mk.injEq]
  omega

/-- Witness for C3 on a white pixel under a blue light. -/
theorem pipeline_full_alpha_identity_witness :
    lumaL 255 255 255 = 255 ∧
      pipelinePixel ⟨255, 255, 255⟩ ⟨0, 0, 255⟩ = ⟨255, 255, 255⟩ :=
  ⟨by decide,
   pipeline_full_alpha_identity ⟨255, 255, 255⟩ ⟨0, 0, 255⟩ (by decide)
     (by decide) (by decide) (by decide)⟩

/-- C4: create_negative returns an RGBA buffer of the same dimensions
whose RGB channels are the channel-wise inversion (255 - value) of the
source RGB and whose alpha channel is the weighted grayscale luminance
of the original, non-inverted source (Pillow mode-L conversion of the
original pixel); a white source pixel yields alpha 255 and a black
source pixel yields alpha 0. -/
theorem createNegative_spec (img : List RGB) (i : Nat) (hi : i < img.length) :
    (createNegativeImg img).length = img.length ∧
    (createNegativeImg img)[i]? =
      some ⟨255 - img[i].r, 255 - img[i].g, 255 - img[i].b,
        lumaL img[i].r img[i].g img[i].b⟩ ∧
    lumaL 255 255 255 = 255 ∧ lumaL 0 0 0 = 0 := by
  refine ⟨List.length_map _ _, ?_, by decide, by decide⟩
  rw [createNegativeImg, List.getElem?_map, List.getElem?_eq_getElem hi]
  rfl

/-- Witness for C4 on a two-pixel frame. -/
theorem createNegative_spec_witness :
    (createNegativeImg [⟨255, 255, 255⟩, ⟨10, 20, 30⟩]).length = 2 ∧
      (createNegativeImg [⟨255, 255, 255⟩, ⟨10, 20, 30⟩])[1]? =
        some ⟨245, 235, 225, 18⟩ ∧
      lumaL 255 255 255 = 255 ∧ lumaL 0 0 0 = 0 := by
  simpa using createNegative_spec [⟨255, 255, 255⟩, ⟨10, 20, 30⟩] 1 (by decide)

/-- C5: in chroma-key sequence mode, when both foreground and background
are frame sequences the orchestrator visits exactly
min(len(fg), len(bg)) indices and pairs foreground frame i with
background frame i; when the background is a static image it visits
exactly len(fg) indices and pairs every foreground frame with the static
image. -/
theorem sequence_pairing_spec {α : Type} (fg bs : List α) (img : α)
    (i j : Nat) (hi : i < min fg.length bs.length) (hj : j < fg.length) :
    (framePairs fg (Background.seq bs)).length = min fg.length bs.length ∧
    (framePairs fg (Background.static img)).length = fg.length ∧
    (framePairs fg (Background.seq bs))[i]? = some (fg[i]?, bs[i]?) ∧
    (fg[i]?).isSome = true ∧ (bs[i]?).isSome = true ∧
    (framePairs fg (Background.static img))[j]? = some (fg[j]?, some img) ∧
    (fg[j]?).isSome = true := by
  have hif : i < fg.length := lt_of_lt_of_le hi (Nat.min_le_left _ _)
  have hib : i < bs.length := lt_of_lt_of_le hi (Nat.min_le_right _ _)
  refine ⟨by simp [framePairs, frameCount], by simp [framePairs, frameCount],
    ?_, ?_, ?_, ?_, ?_⟩
  · rw [framePairs, List.getElem?_map, frameCount, List.getElem?_range hi]
    rfl
  · rw [List.getElem?_eq_getElem hif]; rfl
  · rw [List.getElem?_eq_getElem hib]; rfl
  · rw [framePairs, List.getElem?_map, frameCount, List.getElem?_range hj]
    rfl
  · rw [List.getElem?_eq_getElem hj]; rfl

/-- Witness for C5: ten foreground frames against seven background
frames are truncated to seven pairs; against a static background all ten
are used. -/
theorem sequence_pairing_spec_witness :
    (framePairs [10, 11, 12, 13, 14, 15, 16, 17, 18, 19]
        (Background.seq [20, 21, 22, 23, 24, 25, 26])).length = 7 ∧
      (framePairs [10, 11, 12, 13, 14, 15, 16, 17, 18, 19]
        (Background.static 99)).length = 10 ∧
      (framePairs [10, 11, 12, 13, 14, 15, 16, 17, 18, 19]
        (Background.seq [20, 21, 22, 23, 24, 25, 26]))[3]? =
        some (some 13, some 23) ∧
      (([10, 11, 12, 13, 14, 15, 16, 17, 18, 19] : List Nat)[3]?).isSome = true ∧
      (([20, 21, 22, 23, 24, 25, 26] : List Nat)[3]?).isSome = true ∧
      (framePairs [10, 11, 12, 13, 14, 15, 16, 17, 18, 19]
        (Background.static 99))[9]? = some (some 19, some 99) ∧
      (([10, 11, 12, 13, 14, 15, 16, 17, 18, 19] : List Nat)[9]?).isSome = true :=
  sequence_pairing_spec [10, 11, 12, 13, 14, 15, 16, 17, 18, 19]
    [20, 21, 22, 23, 24, 25, 26] 99 3 9 (by decide) (by decide)

/-- C6: resize_to_match returns both buffers unchanged when their sizes
are equal (in particular on the same buffer twice, unchanged in
dimensions and pixel content); otherwise, for any resize routine that
honours the requested target size, only the buffer with the smaller
pixel area is resized, with Image.BILINEAR, to the exact size of the
larger one, and on an area tie with different sizes the first buffer is
the one resized. -/
theorem resize_to_match_spec {α : Type}
    (resize : Img α → Nat × Nat → PilFilter → Img α)
    (hres : ∀ im s f, (resize im s f).size = s) (a b : Img α) :
    resizeToMatch resize a a = (a, a) ∧
    (a.size = b.size → resizeToMatch resize a b = (a, b)) ∧
    (a.size ≠ b.size → b.w * b.h < a.w * a.h →
      resizeToMatch resize a b = (a, resize b a.size PilFilter.bilinear) ∧
      (resizeToMatch resize a b).2.size = a.size) ∧
    (a.size ≠ b.size → ¬ b.w * b.h < a.w * a.h →
      resizeToMatch resize a b = (resize a b.size PilFilter.bilinear, b) ∧
      (resizeToMatch resize a b).1.size = b.size) := by
  refine ⟨by simp [resizeToMatch], fun h => by simp [resizeToMatch, h],
    fun h hlt => ?_, fun h hge => ?_⟩
  · rw [resizeToMatch, if_neg h, if_pos hlt]
    exact ⟨rfl, hres b a.size PilFilter.bilinear⟩
  · rw [resizeToMatch, if_neg h, if_neg hge]
    exact ⟨rfl, hres a b.size PilFilter.bilinear⟩

/-- Witness for C6: the same 2 by 2 buffer twice is untouched, and a
2 by 1 buffer paired with a larger 2 by 2 buffer is the one resized, to
the larger size, with the bilinear filter. -/
theorem resize_to_match_spec_witness :
    resizeToMatch (fun im s _ => { w := s.1, h := s.2, data := im.data })
        (⟨2, 2, [0, 1, 2, 3]⟩ : Img Nat) ⟨2, 2, [0, 1, 2, 3]⟩ =
      (⟨2, 2, [0, 1, 2, 3]⟩, ⟨2, 2, [0, 1, 2, 3]⟩) ∧
      resizeToMatch (fun im s _ => { w := s.1, h := s.2, data := im.data })
          (⟨2, 1, [7, 8]⟩ : Img Nat) ⟨2, 2, [0, 1, 2, 3]⟩ =
        ((fun (im : Img Nat) (s : Nat × Nat) (_ : PilFilter) =>
            { w := s.1, h := s.2, data := im.data }) ⟨2, 1, [7, 8]⟩
          (⟨2, 2, [0, 1, 2, 3]⟩ : Img Nat).size PilFilter.bilinear,
         ⟨2, 2, [0, 1, 2, 3]⟩) :=
  ⟨(resize_to_match_spec (fun im s _ => { w := s.1, h := s.2, data := im.data })
      (fun _ s _ => rfl) ⟨2, 2, [0, 1, 2, 3]⟩ ⟨2, 2, [0, 1, 2, 3]⟩).1,
   ((resize_to_match_spec (fun im s _ => { w := s.1, h := s.2, data := im.data })
      (fun _ s _ => rfl) ⟨2, 1, [7, 8]⟩ ⟨2, 2, [0, 1, 2, 3]⟩).2.2.2
     (by decide) (by decide)).1⟩

/-- Shape of the frame loop: starting at index i with k frames left, the
successful writes and the logged failures together cover exactly the k
visited indices, every index whose body succeeds is written no matter
what happens at the other indices, and every index whose body raises is
caught and logged. -/
theorem frameLoopFrom_spec {α : Type} (step : Nat → Except String α) :
    ∀ k i,
      (frameLoopFrom step i k).1.length + (frameLoopFrom step i k).2.length
        = k ∧
      (∀ j a, i ≤ j → j < i + k → step j = .ok a →
        (j, a) ∈ (frameLoopFrom step i k).1) ∧
      (∀ j e, i ≤ j → j < i + k → step j = .error e →
        j ∈ (frameLoopFrom step i k).2) := by
  intro k
  induction k with
  | zero => intro i; refine ⟨rfl, ?_, ?_⟩ <;> intro j x h1 h2 h3 <;> omega
  | succ k ih =>
    intro i
    obtain ⟨ihlen, ihok, iherr⟩ := ih (i + 1)
    cases hstep : step i with
    | ok out =>
      refine ⟨?_, ?_, ?_⟩
      · simp only [frameLoopFrom, hstep, List.length_cons]
        omega
      · intro j a h1 h2 h3
        simp only [frameLoopFrom, hstep, List.mem_cons]
        rcases Nat.eq_or_lt_of_le h1 with heq | hlt
        · subst heq
          left
          rw [hstep] at h3
          cases h3
          rfl
        · exact Or.inr (ihok j a hlt (by omega) h3)
      · intro j e h1 h2 h3
        simp only [frameLoopFrom, hstep]
        rcases Nat.eq_or_lt_of_le h1 with heq | hlt
        · subst heq
          rw [hstep] at h3
          cases h3
        · exact iherr j e hlt (by omega) h3
    | error msg =>
      refine ⟨?_, ?_, ?_⟩
      · simp only [frameLoopFrom, hstep, List.length_cons]
        omega
      · intro j a h1 h2 h3
        simp only [frameLoopFrom, hstep]
        rcases Nat.eq_or_lt_of_le h1 with heq | hlt
        · subst heq
          rw [hstep] at h3
          cases h3
        · exact ihok j a hlt (by omega) h3
      · intro j e h1 h2 h3
        simp only [frameLoopFrom, hstep, List.mem_cons]
        rcases Nat.eq_or_lt_of_le h1 with heq | hlt
        · subst heq
          exact Or.inl rfl
        · exact Or.inr (iherr j e hlt (by omega) h3)

/-- C7: in sequence mode every frame index whose processing fails is
caught and logged with its index while the loop continues: the writes
and the logged failures together cover all n visited indices, a frame
whose body succeeds is always written regardless of failures at other
indices, and a frame whose body raises is always logged, never
propagated. -/
theorem frame_loop_no_abort {α : Type} (step : Nat → Except String α)
    (n j : Nat) (a : α) (e : String) (hj : j < n) :
    (frameLoop step n).1.length + (frameLoop step n).2.length = n ∧
    (step j = .ok a → (j, a) ∈ (frameLoop step n).1) ∧
    (step j = .error e → j ∈ (frameLoop step n).2) := by
  obtain ⟨hlen, hok, herr⟩ := frameLoopFrom_spec step n 0
  exact ⟨hlen, fun h => hok j a (Nat.zero_le j) (by omega) h,
    fun h => herr j e (Nat.zero_le j) (by omega) h⟩

/-- Witness for C7: with a three-frame loop whose body fails exactly at
index 1, frame 2 is still processed and written, and index 1 is logged. -/
theorem frame_loop_no_abort_witness :
    ((frameLoop (fun i => if i = 1 then Except.error "boom"
        else Except.ok i) 3).1.length +
      (frameLoop (fun i => if i = 1 then Except.error "boom"
        else Except.ok i) 3).2.length = 3) ∧
    (2, 2) ∈ (frameLoop (fun i => if i = 1 then Except.error "boom"
        else Except.ok i) 3).1 ∧
    1 ∈ (frameLoop (fun i => if i = 1 then Except.error "boom"
        else Except.ok i) 3).2 :=
  ⟨(frame_loop_no_abort (fun i => if i = 1 then Except.error "boom"
      else Except.ok i) 3 2 2 "boom" (by decide)).1,
   (frame_loop_no_abort (fun i => if i = 1 then Except.error "boom"
      else Except.ok i) 3 2 2 "boom" (by decide)).2.1 rfl,
   (frame_loop_no_abort (fun i => if i = 1 then Except.error "boom"
      else Except.ok i) 3 1 1 "boom" (by decide)).2.2 rfl⟩

/-- A hexadecimal digit is not the hash character. -/
theorem hex_ne_hash (c : Char) (h : isHexDigit c = true) :
    (c == '#') = false := by
  cases hbe : c == '#' with
  | false => rfl
  | true =>
    have hc : c = '#' := eq_of_beq hbe
    subst hc
    exact absurd h (by decide)

/-- Stripping leading hashes from an all-hex string changes nothing. -/
theorem lstripHash_of_hex (t : List Char) (hall : t.all isHexDigit = true) :
    lstripHash t = t := by
  cases t with
  | nil => rfl
  | cons c cs =>
    rw [List.all_cons, Bool.and_eq_true] at hall
    simp [lstripHash, List.dropWhile_cons, hex_ne_hash c hall.1]

/-- Python int(s, 16) succeeds on every nonempty hex-digit string. -/
theorem pyIntHex16_isSome (u : List Char) (hne : u.isEmpty = false)
    (hall : u.all isHexDigit = true) : (pyIntHex16 u).isSome = true := by
  simp [pyIntHex16, hne, hall]

/-- An all-hex check transfers to any sublist. -/
theorem sub_all (t : List Char) (hall : t.all isHexDigit = true)
    (u : List Char) (hsub : u ⊆ t) : u.all isHexDigit = true := by
  rw [List.all_eq_true] at hall ⊢
  exact fun c hc => hall c (hsub hc)

/-- A list of positive length is not empty. -/
theorem isEmpty_false_of_length_pos (u : List Char) (h : 0 < u.length) :
    u.isEmpty = false := by
  cases u with
  | nil => simp at h
  | cons c cs => rfl

/-- The validating hex_to_rgb of negative.py accepts every color whose
hash-stripped form is exactly six hexadecimal digits. -/
theorem negHexToRgb_of_hex6 (t u : List Char) (hstrip : lstripHash t = u)
    (h6 : u.length = 6) (hall : u.all isHexDigit = true) :
    (negHexToRgb t).isSome = true := by
  have hreg : regexHex6 u = true := by
    simp [regexHex6, h6, hall]
  have e1 : (pyIntHex16 (u.take 2)).isSome = true := by
    refine pyIntHex16_isSome _ (isEmpty_false_of_length_pos _ ?_)
      (sub_all u hall _ (List.take_subset _ _))
    rw [List.length_take, h6]
    omega
  have e2 : (pyIntHex16 ((u.drop 2).take 2)).isSome = true := by
    refine pyIntHex16_isSome _ (isEmpty_false_of_length_pos _ ?_)
      (sub_all u hall _ (List.Subset.trans (List.take_subset _ _)
        (List.drop_subset _ _)))
    rw [List.length_take, List.length_drop, h6]
    omega
  have e3 : (pyIntHex16 ((u.drop 4).take 2)).isSome = true := by
    refine pyIntHex16_isSome _ (isEmpty_false_of_length_pos _ ?_)
      (sub_all u hall _ (List.Subset.trans (List.take_subset _ _)
        (List.drop_subset _ _)))
    rw [List.length_take, List.length_drop, h6]
    omega
  obtain ⟨v1, h1⟩ := Option.isSome_iff_exists.mp e1
  obtain ⟨v2, h2⟩ := Option.isSome_iff_exists.mp e2
  obtain ⟨v3, h3⟩ := Option.isSome_iff_exists.mp e3
  simp only [negHexToRgb, hstrip, hreg, if_true, h1, h2, h3]
  rfl

/-- C8 counterexample: the claim says a color that is not exactly six
hex digits is never silently accepted, but the unvalidated hex_to_rgb
of chromakey.py parses only the character pairs at positions 0, 2 and 4
and silently accepts the eight-digit string ffffff00 as white, after
which the run proceeds to frame processing. -/
theorem hex_color_silent_accept_cex :
    chromakeyHexToRgb "ffffff00".data = some ⟨255, 255, 255⟩ ∧
      specValidColor "ffffff00".data = false := by
  decide

/-- C8 (amended): for negative-reimage the color is validated by
negative.py before any frame is processed: every color of the spec
format (six hex digits, optional hash) is accepted, and whenever
validation fails the sequence run returns before touching a single
frame; chromakey.py however parses its color without any format
validation, so a malformed color either crashes the run or is silently
accepted (see the counterexample theorem). -/
theorem hex_color_validation_amended (s : String) (frames : List RGB) :
    (specValidColor s.data = true → (negHexToRgb s.data).isSome = true) ∧
    (negHexToRgb s.data = none → negativeReimageSeq s frames = none) := by
  constructor
  · intro hvalid
    rw [specValidColor, Bool.or_eq_true] at hvalid
    rcases hvalid with h | h
    · rw [Bool.and_eq_true, decide_eq_true_iff] at h
      exact negHexToRgb_of_hex6 s.data s.data (lstripHash_of_hex _ h.2)
        h.1 h.2
    · rw [Bool.and_eq_true, Bool.and_eq_true, decide_eq_true_iff] at h
      obtain hlen := h.1.1
      obtain hhead := h.1.2
      obtain htail := h.2
      cases hd : s.data with
      | nil => rw [hd] at hlen; simp at hlen
      | cons c cs =>
        rw [hd] at hlen hhead htail
        have hc : c = '#' := by
          simp only [List.head?] at hhead
          have hsome := eq_of_beq hhead
          exact Option.some.inj hsome
        subst hc
        simp only [List.tail_cons] at htail
        have hstrip : lstripHash ('#' :: cs) = cs := by
          have h2 := lstripHash_of_hex cs htail
          simp only [lstripHash, List.dropWhile_cons] at h2 ⊢
          simp [h2]
        refine negHexToRgb_of_hex6 ('#' :: cs) cs hstrip ?_ htail
        simp only [List.length_cons] at hlen
        omega
  · intro h
    simp [negativeReimageSeq, h]

/-- Witness for C8: the hash-prefixed green of the spec format is
accepted, and a malformed color makes the reimage sequence run return
with no frame processed. -/
theorem hex_color_validation_amended_witness :
    (negHexToRgb "#00ff00".data).isSome = true ∧
      negativeReimageSeq "zzz" [⟨1, 2, 3⟩] = none :=
  ⟨(hex_color_validation_amended "#00ff00" []).1 (by decide),
   (hex_color_validation_amended "zzz" [⟨1, 2, 3⟩]).2 (by decide)⟩

/-- C10: output frame indices are positional, not parsed from input
names: the result of the i-th file of the sorted input list is written
under the 4-digit zero-padded index i, so the output names depend only
on the number of input frames (inputs with offset or gapped numeric
suffixes are renumbered consecutively from 0). -/
theorem output_renumbering_spec {α : Type} (pfx : String)
    (frames frames2 : List α) (i : Nat) (hi : i < frames.length)
    (hlen : frames2.length = frames.length) :
    (seqWrites pfx frames).length = frames.length ∧
    (seqWrites pfx frames)[i]? = some (outName pfx i, frames[i]?) ∧
    (frames[i]?).isSome = true ∧
    (seqWrites pfx frames2).map Prod.fst =
      (seqWrites pfx frames).map Prod.fst := by
  refine ⟨by simp [seqWrites], ?_, ?_, ?_⟩
  · rw [seqWrites, List.getElem?_map, List.getElem?_range hi]
    rfl
  · rw [List.getElem?_eq_getElem hi]
    rfl
  · rw [seqWrites, seqWrites, List.map_map, List.map_map, hlen]
    rfl

/-- Witness for C10: two input frames whose own numeric suffixes are
0005 and 0007 are written under the renumbered names 0000 and 0001. -/
theorem output_renumbering_spec_witness :
    (seqWrites "p" ["p_0005.png", "p_0007.png"]).length = 2 ∧
      (seqWrites "p" ["p_0005.png", "p_0007.png"])[1]? =
        some ("p_0001.png", some "p_0007.png") ∧
      ((["p_0005.png", "p_0007.png"] : List String)[1]?).isSome = true ∧
      (seqWrites "p" ["a", "b"]).map Prod.fst =
        (seqWrites "p" ["p_0005.png", "p_0007.png"]).map Prod.fst := by
  simpa using output_renumbering_spec "p" ["p_0005.png", "p_0007.png"]
    ["a", "b"] 1 (by decide) (by decide)

/-- The file deletion loop removes exactly the matching files that can
be deleted and logs exactly the matching files whose deletion fails. -/
theorem removeLoop_eq (m canDel : String → Bool) (l : List String) :
    removeLoop m canDel l =
      (l.filter (fun f => !(m f && canDel f)),
       l.filter (fun f => m f && !canDel f)) := by
  induction l with
  | nil => rfl
  | cons f rest ih =>
    simp only [removeLoop, ih, List.filter_cons]
    cases hm : m f <;> cases hc : canDel f <;> simp

/-- With no deletion failures, the file loop removes all matching files
and logs nothing. -/
theorem removeLoop_allTrue (m : String → Bool) (l : List String) :
    removeLoop m (fun _ => true) l = (l.filter (fun f => !m f), []) := by
  simp [removeLoop_eq]

/-- Filtering out matching names twice equals filtering once. -/
theorem filter_bang_idem (m : String → Bool) (l : List String) :
    (l.filter (fun f => !m f)).filter (fun f => !m f) =
      l.filter (fun f => !m f) := by
  rw [List.filter_filter]
  simp

/-- Cleanup of a missing working directory does nothing and logs
nothing. -/
theorem cleanupFS_dead (m canDel : String → Bool) (r1 r2 r3 : Bool)
    (rf : List String) (i b : Option (List String)) :
    cleanupFS m canDel r1 r2 r3 ⟨false, rf, i, b⟩ =
      (⟨false, rf, i, b⟩, []) := by
  rfl

/-- The subdirectory pass with no deletion failures produces the cleaned
subdirectory state and an empty log. -/
theorem cleanSubdir_allTrue (m : String → Bool) (d : String)
    (o : Option (List String)) :
    cleanSubdir m (fun _ => true) true d o = (cleanedSub m o, []) := by
  cases o with
  | none => rfl
  | some l =>
    simp only [cleanSubdir, removeLoop_allTrue, cleanedSub]
    split_ifs <;> rfl

/-- Closed form of a fully successful cleanup run on an existing working
directory: matching files filtered out everywhere, emptied
subdirectories removed, and the root itself removed exactly when
nothing remains; the log is empty. -/
theorem cleanupFS_allTrue_run (m : String → Bool) (rf : List String)
    (idir bdir : Option (List String)) :
    cleanupFS m (fun _ => true) true true true ⟨true, rf, idir, bdir⟩ =
      ((if (rf.filter (fun f => !m f)).isEmpty &&
            (cleanedSub m idir).isNone && (cleanedSub m bdir).isNone then
          (⟨false, rf.filter (fun f => !m f), cleanedSub m idir,
            cleanedSub m bdir⟩ : FS)
        else
          ⟨true, rf.filter (fun f => !m f), cleanedSub m idir,
            cleanedSub m bdir⟩), []) := by
  rw [cleanupFS]
  simp only [cleanSubdir_allTrue, removeLoop_allTrue, cleanedSub]
  cases idir <;> cases bdir <;> split_ifs <;> simp_all

/-- Cleaning an already cleaned subdirectory changes nothing. -/
theorem cleanedSub_fix (m : String → Bool) (o : Option (List String)) :
    cleanedSub m (cleanedSub m o) = cleanedSub m o := by
  cases o with
  | none => rfl
  | some l =>
    simp only [cleanedSub]
    split_ifs with h1
    · rfl
    · simp only [cleanedSub, filter_bang_idem]
      rw [if_neg h1]

/-- A second cleanup run on the state left by a first successful run
changes nothing and logs nothing. -/
theorem cleanup_allTrue_idem (m : String → Bool) (fs : FS) :
    cleanupFS m (fun _ => true) true true true
        ((cleanupFS m (fun _ => true) true true true fs).1) =
      ((cleanupFS m (fun _ => true) true true true fs).1, []) := by
  obtain ⟨re, rf, idir, bdir⟩ := fs
  cases re with
  | false => rfl
  | true =>
    rw [cleanupFS_allTrue_run]
    by_cases hdead : ((rf.filter (fun f => !m f)).isEmpty &&
        (cleanedSub m idir).isNone && (cleanedSub m bdir).isNone) = true
    · rw [if_pos hdead]
      rfl
    · rw [if_neg hdead]
      rw [cleanupFS_allTrue_run]
      rw [filter_bang_idem, cleanedSub_fix, cleanedSub_fix]
      rw [if_neg hdead]

/-- The plain files left in the root after cleanup are exactly what the
file loop leaves, whatever happens to the directories. -/
theorem cleanupFS_rootFiles (m canDel : String → Bool) (r1 r2 r3 : Bool)
    (rf : List String) (idir bdir : Option (List String)) :
    ((cleanupFS m canDel r1 r2 r3 ⟨true, rf, idir, bdir⟩).1).rootFiles =
      (removeLoop m canDel rf).1 := by
  rw [cleanupFS]
  dsimp only
  split_ifs <;> simp_all

/-- Every failure logged by the root file loop appears in the log of the
whole cleanup run. -/
theorem cleanupFS_logs_sup (m canDel : String → Bool) (r1 r2 r3 : Bool)
    (rf : List String) (idir bdir : Option (List String)) (x : String)
    (hx : x ∈ (removeLoop m canDel rf).2) :
    x ∈ (cleanupFS m canDel r1 r2 r3 ⟨true, rf, idir, bdir⟩).2 := by
  rw [cleanupFS]
  dsimp only
  split_ifs <;> simp_all [hx]

/-- A deletable matching file never survives the subdirectory pass,
whatever other deletions fail. -/
theorem cleanSubdir_no_deleted (m canDel : String → Bool) (rm : Bool)
    (d : String) (l g : List String) (f : String) (hm : m f = true)
    (hc : canDel f = true)
    (hg : (cleanSubdir m canDel rm d (some l)).1 = some g) : f ∉ g := by
  simp only [cleanSubdir, removeLoop_eq] at hg
  split_ifs at hg with h1 h2 <;> dsimp only at hg <;>
    rw [Option.some.injEq] at hg <;> subst hg <;>
    first
      | exact List.not_mem_nil f
      | (intro hf
         rw [List.mem_filter, hm, hc] at hf
         exact absurd hf.2 (by decide))

/-- A deletable matching file never survives in the inputframes
directory after a cleanup run, whatever other deletions fail. -/
theorem cleanupFS_input_no_deleted (m canDel : String → Bool)
    (r1 r2 r3 : Bool) (rf : List String) (bdir : Option (List String))
    (l g : List String) (f : String) (hm : m f = true)
    (hc : canDel f = true)
    (hg : ((cleanupFS m canDel r1 r2 r3 ⟨true, rf, some l, bdir⟩).1).inputDir
      = some g) : f ∉ g := by
  rw [cleanupFS] at hg
  dsimp only at hg
  split_ifs at hg with h1 h2 h3 h4 <;>
    first
      | (exact cleanSubdir_no_deleted m canDel r2 "inputframes" l g f hm hc hg)
      | simp_all

/-- C9: cleanup_sequence is idempotent and best-effort: a second run on
the directory tree left by a successful first run changes nothing and
logs no failure; and in every run a file whose deletion fails is logged
while every other matching, deletable file is still removed, in the
root and in the subdirectories alike (no abort on partial failure). -/
theorem cleanup_idempotent_best_effort (m canDel : String → Bool)
    (r1 r2 r3 : Bool) (fs : FS) (f : String) (l g : List String)
    (hroot : fs.rootExists = true) :
    (cleanupFS m (fun _ => true) true true true
        ((cleanupFS m (fun _ => true) true true true fs).1) =
      ((cleanupFS m (fun _ => true) true true true fs).1, [])) ∧
    (f ∈ fs.rootFiles → m f = true → canDel f = true →
      f ∉ ((cleanupFS m canDel r1 r2 r3 fs).1).rootFiles) ∧
    (f ∈ fs.rootFiles → m f = true → canDel f = false →
      f ∈ (cleanupFS m canDel r1 r2 r3 fs).2) ∧
    (fs.inputDir = some l → f ∈ l → m f = true → canDel f = true →
      ((cleanupFS m canDel r1 r2 r3 fs).1).inputDir = some g → f ∉ g) := by
  obtain ⟨re, rf, idir, bdir⟩ := fs
  simp only [FS.rootExists] at hroot
  subst hroot
  refine ⟨cleanup_allTrue_idem m ⟨true, rf, idir, bdir⟩, ?_, ?_, ?_⟩
  · intro hf hm hc
    rw [cleanupFS_rootFiles, removeLoop_eq]
    intro hmem
    rw [List.mem_filter, hm, hc] at hmem
    exact absurd hmem.2 (by decide)
  · intro hf hm hc
    apply cleanupFS_logs_sup
    rw [removeLoop_eq]
    dsimp only
    rw [List.mem_filter, hm, hc]
    exact ⟨hf, by decide⟩
  · intro hi hf hm hc hg
    subst hi
    exact cleanupFS_input_no_deleted m canDel r1 r2 r3 rf bdir l g f hm hc hg

/-- Witness for C9: a working tree with three root files (two matching,
one of them undeletable) and a subdirectory; the second cleanup run is a
no-op, the deletable matching file is gone, the undeletable one is
logged, and the subdirectory file is removed despite the root failure. -/
theorem cleanup_idempotent_best_effort_witness :
    (cleanupFS (fun s => s == "seq_0000.png" || s == "seq_0002.png" ||
          s == "bad_0001.png") (fun _ => true) true true true
        ((cleanupFS (fun s => s == "seq_0000.png" || s == "seq_0002.png" ||
            s == "bad_0001.png") (fun _ => true) true true true
          ⟨true, ["seq_0000.png", "keep.txt", "bad_0001.png"],
            some ["seq_0002.png", "note.txt"], none⟩).1) =
      ((cleanupFS (fun s => s == "seq_0000.png" || s == "seq_0002.png" ||
            s == "bad_0001.png") (fun _ => true) true true true
          ⟨true, ["seq_0000.png", "keep.txt", "bad_0001.png"],
            some ["seq_0002.png", "note.txt"], none⟩).1, [])) ∧
    "seq_0000.png" ∉ ((cleanupFS (fun s => s == "seq_0000.png" ||
          s == "seq_0002.png" || s == "bad_0001.png")
        (fun s => !(s == "bad_0001.png")) true true true
        ⟨true, ["seq_0000.png", "keep.txt", "bad_0001.png"],
          some ["seq_0002.png", "note.txt"], none⟩).1).rootFiles ∧
    "bad_0001.png" ∈ (cleanupFS (fun s => s == "seq_0000.png" ||
          s == "seq_0002.png" || s == "bad_0001.png")
        (fun s => !(s == "bad_0001.png")) true true true
        ⟨true, ["seq_0000.png", "keep.txt", "bad_0001.png"],
          some ["seq_0002.png", "note.txt"], none⟩).2 ∧
    "seq_0002.png" ∉ (["note.txt"] : List String) :=
  ⟨(cleanup_idempotent_best_effort
      (fun s => s == "seq_0000.png" || s == "seq_0002.png" ||
        s == "bad_0001.png") (fun _ => true) true true true
      ⟨true, ["seq_0000.png", "keep.txt", "bad_0001.png"],
        some ["seq_0002.png", "note.txt"], none⟩ "x" [] [] rfl).1,
   (cleanup_idempotent_best_effort
      (fun s => s == "seq_0000.png" || s == "seq_0002.png" ||
        s == "bad_0001.png") (fun s => !(s == "bad_0001.png")) true true true
      ⟨true, ["seq_0000.png", "keep.txt", "bad_0001.png"],
        some ["seq_0002.png", "note.txt"], none⟩ "seq_0000.png" [] []
      rfl).2.1 (by decide) (by decide) (by decide),
   (cleanup_idempotent_best_effort
      (fun s => s == "seq_0000.png" || s == "seq_0002.png" ||
        s == "bad_0001.png") (fun s => !(s == "bad_0001.png")) true true true
      ⟨true, ["seq_0000.png", "keep.txt", "bad_0001.png"],
        some ["seq_0002.png", "note.txt"], none⟩ "bad_0001.png" [] []
      rfl).2.2.1 (by decide) (by decide) (by decide),
   (cleanup_idempotent_best_effort
      (fun s => s == "seq_0000.png" || s == "seq_0002.png" ||
        s == "bad_0001.png") (fun s => !(s == "bad_0001.png")) true true true
      ⟨true, ["seq_0000.png", "keep.txt", "bad_0001.png"],
        some ["seq_0002.png", "note.txt"], none⟩ "seq_0002.png"
      ["seq_0002.png", "note.txt"] ["note.txt"] rfl).2.2.2 rfl (by decide)
      (by decide) (by decide) (by decide)⟩
